import Mathlib

/-!
Shallow embedding of `src/main.py` (email-text-extractor).

The program is a single sequential pipeline: load a YAML config and a YAML
mapping of field-name → regex pattern, fetch Outlook messages in a date
range, extract fields from each body with `re.search`, and print a report.

External collaborators (the YAML parser, the CPython `re` module, CPython's
`_strptime`, `argparse`, and the Outlook COM provider) are modelled here by
executable Lean functions faithful to the fragment of their behaviour that
the program exercises:

* `Regex` / `run` / `reSearch` model Python's backtracking regex matcher for
  the constructs the tool's patterns use (literals, `.`, `\d`, escaped
  literals, `(...)` capturing groups numbered by opening parenthesis,
  alternation `|`, and the greedy quantifiers `*`, `+`, `?`).  Candidate
  lists are ordered by backtracking priority, so the head of the candidate
  list is the match Python selects; `match.group(1)` is the last text
  captured by group 1, or `None` when group 1 did not participate, and
  raises an index error when the compiled pattern has no groups.
* `compileRegex` models `re.compile` on that fragment: it either produces a
  `Regex` (numbering the capture groups left to right) or fails the way
  `re.compile` fails (unbalanced parenthesis, dangling quantifier, bad
  escape); constructs outside the fragment are rejected with an
  "unsupported" error.
-/

/-- Association-list lookup with decidable string keys (a Python `dict`
access `d[k]` / `d.get(k)` on an insertion-ordered dict modelled as a list
of key-value pairs). -/
def lookupKey {α : Type} (k : String) : List (String × α) → Option α
  | [] => none
  | (k', v) :: t => if k' = k then some v else lookupKey k t

/-- Regex abstract syntax for the fragment of Python `re` that the program's
patterns use.  `group idx r` is a capturing group numbered `idx` (Python
numbers groups by opening parenthesis, starting at 1). -/
inductive Regex : Type where
  | eps : Regex
  | char (c : Char) : Regex
  | digitCls : Regex
  | dot : Regex
  | concat (r1 r2 : Regex) : Regex
  | alt (r1 r2 : Regex) : Regex
  | star (r : Regex) : Regex
  | group (idx : Nat) (r : Regex) : Regex
deriving DecidableEq, Repr

/-- Number of capturing groups of a compiled pattern (Python's
`pattern.groups`). -/
def numGroups : Regex → Nat
  | .eps => 0
  | .char _ => 0
  | .digitCls => 0
  | .dot => 0
  | .concat r1 r2 => numGroups r1 + numGroups r2
  | .alt r1 r2 => numGroups r1 + numGroups r2
  | .star r => numGroups r
  | .group _ r => numGroups r + 1

/-- Capture map of a match: group number → captured text.  Python keeps the
text of the last repetition for a group inside a quantifier, modelled by
overwriting on update. -/
abbrev Groups := List (Nat × List Char)

/-- Numeric lookup in a capture map. -/
def lookupNum (n : Nat) : Groups → Option (List Char)
  | [] => none
  | (m, v) :: t => if m = n then some v else lookupNum n t

/-- Overwrite-or-append update of a capture map. -/
def setG (g : Groups) (n : Nat) (v : List Char) : Groups :=
  match g with
  | [] => [(n, v)]
  | (m, w) :: t => if m = n then (n, v) :: t else (m, w) :: setG t n v

/-- Iteration of a starred sub-matcher.  `f` is the matcher of the star's
body; an iteration is only continued when the body consumed at least one
character (Python's engine likewise refuses empty-progress loop
iterations).  Greedy: longer continuations come first in priority order. -/
def runStar (f : List Char → Groups → List (List Char × Groups)) :
    Nat → List Char → Groups → List (List Char × Groups)
  | 0, s, g => [(s, g)]
  | fuel + 1, s, g =>
      (((f s g).filter fun p => p.1.length < s.length).flatMap
        fun p => runStar f fuel p.1 p.2) ++ [(s, g)]

/-- Backtracking matcher: all ways the regex can match a prefix of `s`,
each candidate giving the remaining suffix and the capture map, listed in
Python's backtracking priority order (so the head is the match the Python
engine commits to at this position). -/
def run : Regex → List Char → Groups → List (List Char × Groups)
  | .eps, s, g => [(s, g)]
  | .char c, s, g =>
      match s with
      | [] => []
      | x :: xs => if x = c then [(xs, g)] else []
  | .digitCls, s, g =>
      match s with
      | [] => []
      | x :: xs => if x.isDigit then [(xs, g)] else []
  | .dot, s, g =>
      match s with
      | [] => []
      | x :: xs => if x = '\n' then [] else [(xs, g)]
  | .concat r1 r2, s, g => (run r1 s g).flatMap fun p => run r2 p.1 p.2
  | .alt r1 r2, s, g => run r1 s g ++ run r2 s g
  | .star r, s, g => runStar (run r) s.length s g
  | .group n r, s, g =>
      (run r s g).map fun p => (p.1, setG p.2 n (s.take (s.length - p.1.length)))

/-- Scan for the leftmost position where the regex matches, returning the
capture map of the committed match there (Python's `re.search`): positions
are tried left to right, and at the first position with a match the
priority-first candidate is taken. -/
def searchAux (r : Regex) : List Char → Option Groups
  | [] => ((run r [] []).head?).map Prod.snd
  | c :: t =>
      match (run r (c :: t) []).head? with
      | some p => some p.2
      | none => searchAux r t

/-- Model of `re.search(pattern, text)` restricted to the information the
program uses (match presence and group captures). -/
def reSearch (r : Regex) (s : List Char) : Option Groups := searchAux r s

/-- Decidable "the pattern matches at position `i` of `s`" (some candidate
exists for the anchored match at that position). -/
def matchesAt (r : Regex) (s : List Char) (i : Nat) : Bool :=
  !(run r (s.drop i) []).isEmpty

/-- Value of the first capture group of the match committed at position
`i`: `none` when group 1 did not participate in that match. -/
def groupOneAt (r : Regex) (s : List Char) (i : Nat) : Option String :=
  match (run r (s.drop i) []).head? with
  | some p => (lookupNum 1 p.2).map fun l => String.mk l
  | none => none

/-- Recursive-descent compilation of a pattern string, modelling
`re.compile` on the supported fragment.  `ph` is the grammar phase
(3 = alternation, 2 = concatenation, 1 = quantified item, 0 = atom), `n`
the number of capture groups opened so far; returns the parsed regex, the
updated group count and the unconsumed input.  Fuel only bounds recursion
depth; `compileRegex` supplies more than any input can use. -/
def parseP : Nat → Nat → Nat → List Char → Except String (Regex × Nat × List Char)
  | 0, _, _, _ => .error "fuel exhausted"
  | fuel + 1, ph, n, s =>
    if ph = 3 then
      match parseP fuel 2 n s with
      | .error e => .error e
      | .ok (r1, n1, s1) =>
        match s1 with
        | '|' :: s2 =>
            match parseP fuel 3 n1 s2 with
            | .error e => .error e
            | .ok (r2, n2, s3) => .ok (.alt r1 r2, n2, s3)
        | _ => .ok (r1, n1, s1)
    else if ph = 2 then
      match s with
      | [] => .ok (.eps, n, [])
      | ')' :: _ => .ok (.eps, n, s)
      | '|' :: _ => .ok (.eps, n, s)
      | _ =>
        match parseP fuel 1 n s with
        | .error e => .error e
        | .ok (r1, n1, s1) =>
          match parseP fuel 2 n1 s1 with
          | .error e => .error e
          | .ok (r2, n2, s2) => .ok (.concat r1 r2, n2, s2)
    else if ph = 1 then
      match parseP fuel 0 n s with
      | .error e => .error e
      | .ok (r, n1, s1) =>
        match s1 with
        | '*' :: s2 =>
            match s2 with
            | c :: _ =>
                if c = '*' ∨ c = '+' ∨ c = '?' then .error "multiple repeat"
                else .ok (.star r, n1, s2)
            | [] => .ok (.star r, n1, s2)
        | '+' :: s2 =>
            match s2 with
            | c :: _ =>
                if c = '*' ∨ c = '+' ∨ c = '?' then .error "multiple repeat"
                else .ok (.concat r (.star r), n1, s2)
            | [] => .ok (.concat r (.star r), n1, s2)
        | '?' :: s2 =>
            match s2 with
            | c :: _ =>
                if c = '*' ∨ c = '+' ∨ c = '?' then .error "multiple repeat"
                else .ok (.alt r .eps, n1, s2)
            | [] => .ok (.alt r .eps, n1, s2)
        | _ => .ok (r, n1, s1)
    else
      match s with
      | [] => .error "unexpected end of pattern"
      | '(' :: s1 =>
        (match s1 with
         | '?' :: _ => .error "unsupported: extension notation"
         | _ =>
           match parseP fuel 3 (n + 1) s1 with
           | .error e => .error e
           | .ok (r, n1, s2) =>
             match s2 with
             | ')' :: s3 => .ok (.group (n + 1) r, n1, s3)
             | _ => .error "missing ), unterminated subpattern")
      | ')' :: _ => .error "unbalanced parenthesis"
      | '*' :: _ => .error "nothing to repeat"
      | '+' :: _ => .error "nothing to repeat"
      | '?' :: _ => .error "nothing to repeat"
      | '[' :: _ => .error "unsupported: character class"
      | '{' :: _ => .error "unsupported: counted repeat"
      | '^' :: _ => .error "unsupported: anchor"
      | '$' :: _ => .error "unsupported: anchor"
      | '.' :: s1 => .ok (.dot, n, s1)
      | '\\' :: s1 =>
        (match s1 with
         | [] => .error "bad escape (end of pattern)"
         | c :: s2 =>
             if c = 'd' then .ok (.digitCls, n, s2)
             else if c.isAlpha ∨ c.isDigit then .error "unsupported: escape"
             else .ok (.char c, n, s2))
      | c :: s1 => .ok (.char c, n, s1)

/-- Model of `re.compile(pattern)`: compile the whole pattern string or
fail as `re.compile` does (error value is the message). -/
def compileRegex (pattern : String) : Except String Regex :=
  match parseP (4 * pattern.length + 8) 3 0 pattern.toList with
  | .ok (r, _, []) => .ok r
  | .ok (_, _, _ :: _) => .error "unbalanced parenthesis"
  | .error e => .error e

/-- Errors the extraction loop of `extract_items` can raise: a
`re.error` from compiling an invalid pattern (`RegexCompileError` in the
spec's taxonomy) or the index error from `match.group(1)` on a pattern
with no capture group (the spec's `CaptureGroupError`). -/
inductive ExtractError : Type where
  | regexCompileError (msg : String) : ExtractError
  | captureGroupError : ExtractError
deriving DecidableEq, Repr

/-- Model of `match.group(1)`: an index error when the compiled pattern has
no capture groups, otherwise the text captured by group 1 (`none` when the
group did not participate in the match). -/
def getGroup1 (r : Regex) (g : Groups) : Except ExtractError (Option String) :=
  if numGroups r = 0 then .error .captureGroupError
  else .ok ((lookupNum 1 g).map fun l => String.mk l)

/-- Embedding of `extract_items(text, regex_patterns)` (src/main.py lines
37-54): for each `(item, pattern)` in dict order, compile the pattern,
search `text`, and on a match store `match.group(1)` under `item`; an
exception anywhere aborts the loop and discards the dict (modelled by the
`Except` error).  The result dict is the matched items in pattern order. -/
def extract_items (text : String) :
    List (String × String) → Except ExtractError (List (String × Option String))
  | [] => .ok []
  | (item, pattern) :: rest =>
    match compileRegex pattern with
    | .error e => .error (.regexCompileError e)
    | .ok regex =>
      match reSearch regex text.toList with
      | some g =>
        match getGroup1 regex g with
        | .error e => .error e
        | .ok v =>
          match extract_items text rest with
          | .error e => .error e
          | .ok tl => .ok ((item, v) :: tl)
      | none => extract_items text rest

/-- Embedding of `load_regex_patterns(file_path)` (src/main.py lines
23-35) at the value level: the file read and YAML parse are external, so
the function is applied to the already-parsed YAML mapping, and it returns
it unchanged — in particular it never looks at the pattern strings, so no
compilation (and no compile-error) can happen here. -/
def load_regex_patterns (yamlDoc : List (String × String)) : List (String × String) :=
  yamlDoc

deriving instance DecidableEq for Except

example : compileRegex "Order #(\\d+)" =
    .ok (.concat (.char 'O') (.concat (.char 'r') (.concat (.char 'd')
      (.concat (.char 'e') (.concat (.char 'r') (.concat (.char ' ')
      (.concat (.char '#')
      (.concat (.group 1 (.concat (.concat .digitCls (.star .digitCls)) .eps))
        .eps)))))))) := by decide

example : extract_items "Your Order #4521 has shipped."
    [("order_id", "Order #(\\d+)")] = .ok [("order_id", some "4521")] := by decide

example : extract_items "No order info here."
    [("order_id", "Order #(\\d+)")] = .ok [] := by decide

/-- Success value of the extraction loop: the matched items in pattern
order, each mapped to the text of its first capture group in the committed
match (`none` when the group did not participate). -/
def extractSpec (text : String) (pats : List (String × String)) :
    List (String × Option String) :=
  pats.filterMap fun q =>
    match compileRegex q.2 with
    | .ok r =>
        (reSearch r text.toList).map fun g =>
          (q.1, (lookupNum 1 g).map fun l => String.mk l)
    | .error _ => none

/-- Keys absent from an association list are not found. -/
theorem lookupKey_eq_none {α : Type} {k : String} {l : List (String × α)}
    (h : ∀ x ∈ l, x.1 ≠ k) : lookupKey k l = none := by
  induction l with
  | nil => rfl
  | cons a t ih =>
      obtain ⟨k', v⟩ := a
      have hk : k' ≠ k := h (k', v) (List.mem_cons_self _ _)
      simp only [lookupKey, if_neg hk]
      exact ih fun x hx => h x (List.mem_cons_of_mem _ hx)

/-- Every key of the extraction result is a key of the pattern mapping. -/
theorem extractSpec_key_mem {text : String} {pats : List (String × String)}
    {x : String × Option String} (h : x ∈ extractSpec text pats) :
    x.1 ∈ pats.map Prod.fst := by
  rw [extractSpec, List.mem_filterMap] at h
  obtain ⟨q, hq, hfq⟩ := h
  have hx1 : x.1 = q.1 := by
    split at hfq
    · rw [Option.map_eq_some'] at hfq
      obtain ⟨g, _, hbx⟩ := hfq
      rw [← hbx]
    · simp at hfq
  rw [hx1]
  exact List.mem_map_of_mem Prod.fst hq

/-- On a pattern mapping whose patterns all compile with at least one
capture group, the extraction loop raises nothing and returns the matched
items in pattern order. -/
theorem extract_items_ok (text : String) (pats : List (String × String))
    (hc : ∀ q ∈ pats, ∃ r, compileRegex q.2 = Except.ok r ∧ 1 ≤ numGroups r) :
    extract_items text pats = Except.ok (extractSpec text pats) := by
  induction pats with
  | nil => rfl
  | cons a t ih =>
      obtain ⟨item, pattern⟩ := a
      obtain ⟨r, hr, hg⟩ := hc (item, pattern) (List.mem_cons_self _ _)
      have ht := ih fun q hq => hc q (List.mem_cons_of_mem _ hq)
      have hg0 : numGroups r ≠ 0 := by omega
      cases hs : reSearch r text.toList with
      | some g =>
          simp only [extract_items, extractSpec, List.filterMap_cons, hr, hs, getGroup1,
            if_neg hg0, Option.map_some']
          rw [show extract_items text t = Except.ok (extractSpec text t) from ht]
          rfl
      | none =>
          simp only [extract_items, extractSpec, List.filterMap_cons, hr, hs, Option.map_none']
          exact ht

/-- Lookup of an item in the extraction result, for pattern mappings with
distinct keys: the stored value is exactly the group-1 view of the
pattern's own search result. -/
theorem lookupKey_extractSpec (text : String) {pats : List (String × String)}
    {item p : String} {r : Regex}
    (hnd : (pats.map Prod.fst).Nodup) (hmem : (item, p) ∈ pats)
    (hr : compileRegex p = Except.ok r) :
    lookupKey item (extractSpec text pats) =
      (reSearch r text.toList).map fun g => (lookupNum 1 g).map fun l => String.mk l := by
  induction pats with
  | nil => simp at hmem
  | cons a t ih =>
      obtain ⟨a1, a2⟩ := a
      rw [List.map_cons, List.nodup_cons] at hnd
      obtain ⟨ha, hndt⟩ := hnd
      rcases List.mem_cons.mp hmem with heq | hmemt
      · have he1 : item = a1 := congrArg Prod.fst heq
        have he2 : p = a2 := congrArg Prod.snd heq
        subst he1; subst he2
        cases hs : reSearch r text.toList with
        | some g =>
            have hspec : extractSpec text ((item, p) :: t) =
                (item, (lookupNum 1 g).map fun l => String.mk l) :: extractSpec text t := by
              simp only [extractSpec, List.filterMap_cons, hr, hs, Option.map_some']
            rw [hspec]
            simp [lookupKey]
        | none =>
            simp only [extractSpec, List.filterMap_cons, hr, hs, Option.map_none']
            exact lookupKey_eq_none fun x hx => by
              intro hxk
              exact ha (hxk ▸ extractSpec_key_mem hx)
      · have ha1 : a1 ≠ item := by
          intro h
          refine ha ?_
          rw [h]
          exact List.mem_map.mpr ⟨(item, p), hmemt, rfl⟩
        have htail := ih hndt hmemt
        cases hcr : compileRegex a2 with
        | ok r' =>
            cases hs : reSearch r' text.toList with
            | some g =>
                simp only [extractSpec, List.filterMap_cons, hcr, hs, Option.map_some',
                  lookupKey, if_neg ha1]
                exact htail
            | none =>
                simp only [extractSpec, List.filterMap_cons, hcr, hs, Option.map_none']
                exact htail
        | error e =>
            simp only [extractSpec, List.filterMap_cons, hcr]
            exact htail

/-- The scan succeeds exactly when the pattern matches at some position. -/
theorem searchAux_isSome_iff (r : Regex) :
    ∀ s : List Char, (searchAux r s).isSome = true ↔ ∃ i, matchesAt r s i = true := by
  intro s
  induction s with
  | nil =>
      cases hrun : run r [] [] with
      | nil => simp [searchAux, matchesAt, hrun]
      | cons p t => simp [searchAux, matchesAt, hrun]
  | cons c t ih =>
      cases hrun : run r (c :: t) [] with
      | cons p l =>
          constructor
          · intro _
            exact ⟨0, by simp [matchesAt, hrun]⟩
          · intro _
            simp [searchAux, hrun]
      | nil =>
          have hstep : searchAux r (c :: t) = searchAux r t := by
            simp [searchAux, hrun]
          rw [hstep, ih]
          constructor
          · rintro ⟨i, hi⟩
            exact ⟨i + 1, hi⟩
          · rintro ⟨i, hi⟩
            cases i with
            | zero => simp [matchesAt, hrun] at hi
            | succ j => exact ⟨j, hi⟩

/-- The scan commits to the leftmost matching position: if position `i`
matches and no earlier position does, the scan's result is the committed
match at `i`. -/
theorem searchAux_leftmost (r : Regex) :
    ∀ (s : List Char) (i : Nat), matchesAt r s i = true →
      (∀ j, j < i → matchesAt r s j = false) →
      searchAux r s = ((run r (s.drop i) []).head?).map Prod.snd := by
  intro s
  induction s with
  | nil =>
      intro i _ _
      rw [List.drop_nil]
      rfl
  | cons c t ih =>
      intro i hi hj
      cases i with
      | zero =>
          rw [List.drop_zero]
          cases hrun : run r (c :: t) [] with
          | nil => simp [matchesAt, hrun] at hi
          | cons p l => simp [searchAux, hrun]
      | succ n =>
          have h0 : matchesAt r (c :: t) 0 = false := hj 0 (Nat.succ_pos n)
          have hrun : run r (c :: t) [] = [] := by
            rw [matchesAt, List.drop_zero] at h0
            cases hr : run r (c :: t) [] with
            | nil => rfl
            | cons p l => rw [hr] at h0; simp at h0
          have hstep : searchAux r (c :: t) = searchAux r t := by
            simp [searchAux, hrun]
          rw [hstep]
          exact ih n hi fun j hjn => hj (j + 1) (Nat.succ_lt_succ hjn)

/-- C1: for every body and every pattern mapping whose patterns each
compile and contain at least one capture group, the extraction succeeds
and its result contains a field if and only if the field's pattern matches
at some position of the body; the stored value is the first capture group
of the match committed at the leftmost matching position. -/
theorem claim_C1 (text : String) (pats : List (String × String))
    (hnd : (pats.map Prod.fst).Nodup)
    (hc : ∀ q ∈ pats, ∃ r, compileRegex q.2 = Except.ok r ∧ 1 ≤ numGroups r) :
    ∃ res, extract_items text pats = Except.ok res ∧
      ∀ item p r, (item, p) ∈ pats → compileRegex p = Except.ok r →
        (((lookupKey item res).isSome = true) ↔ ∃ i, matchesAt r text.toList i = true) ∧
        (∀ i, matchesAt r text.toList i = true →
          (∀ j, j < i → matchesAt r text.toList j = false) →
          lookupKey item res = some (groupOneAt r text.toList i)) := by
  refine ⟨extractSpec text pats, extract_items_ok text pats hc, ?_⟩
  intro item p r hmem hr
  have hl := lookupKey_extractSpec text hnd hmem hr
  constructor
  · rw [hl]
    rw [show ((reSearch r text.toList).map fun g =>
          (lookupNum 1 g).map fun l => String.mk l).isSome = (reSearch r text.toList).isSome
        from Option.isSome_map ..]
    exact searchAux_isSome_iff r text.toList
  · intro i hi hj
    rw [hl, reSearch, searchAux_leftmost r text.toList i hi hj]
    cases hh : (run r (text.toList.drop i) []).head? with
    | none =>
        rw [matchesAt] at hi
        cases hrun : run r (text.toList.drop i) [] with
        | nil => rw [hrun] at hi; simp at hi
        | cons p l => rw [hrun] at hh; simp at hh
    | some p =>
        simp only [groupOneAt]
        rw [hh]
        rfl

/-- C1 witness: the spec's own scenario, `{"order_id": "Order #(\d+)"}`
against `"Your Order #4521 has shipped."`. -/
theorem claim_C1_witness :
    ∃ res, extract_items "Your Order #4521 has shipped."
        [("order_id", "Order #(\\d+)")] = Except.ok res ∧
      ∀ item p r, (item, p) ∈ [("order_id", "Order #(\\d+)")] →
        compileRegex p = Except.ok r →
        (((lookupKey item res).isSome = true) ↔
          ∃ i, matchesAt r "Your Order #4521 has shipped.".toList i = true) ∧
        (∀ i, matchesAt r "Your Order #4521 has shipped.".toList i = true →
          (∀ j, j < i → matchesAt r "Your Order #4521 has shipped.".toList j = false) →
          lookupKey item res =
            some (groupOneAt r "Your Order #4521 has shipped.".toList i)) :=
  claim_C1 "Your Order #4521 has shipped." [("order_id", "Order #(\\d+)")]
    (by decide)
    (by
      intro q hq
      rw [List.mem_singleton] at hq
      subst hq
      exact ⟨.concat (.char 'O') (.concat (.char 'r') (.concat (.char 'd')
        (.concat (.char 'e') (.concat (.char 'r') (.concat (.char ' ')
        (.concat (.char '#')
        (.concat (.group 1 (.concat (.concat .digitCls (.star .digitCls)) .eps))
          .eps))))))), by decide, by decide⟩)

/-- Matching at no position makes the scan return nothing. -/
theorem reSearch_eq_none {r : Regex} {s : List Char}
    (h : ∀ i, matchesAt r s i = false) : reSearch r s = none := by
  have hns : ¬(searchAux r s).isSome = true := by
    rw [searchAux_isSome_iff]
    rintro ⟨i, hi⟩
    rw [h i] at hi
    exact Bool.false_ne_true hi
  rw [reSearch]
  exact Option.not_isSome_iff_eq_none.mp hns

/-- C2: on a valid pattern mapping (all patterns compile, each with a
capture group), a field whose pattern matches at no position of the body is
absent from the extraction result (not present with an empty or null
value), and if no pattern matches anywhere the result is the empty
mapping. -/
theorem claim_C2 (text : String) (pats : List (String × String))
    (hnd : (pats.map Prod.fst).Nodup)
    (hc : ∀ q ∈ pats, ∃ r, compileRegex q.2 = Except.ok r ∧ 1 ≤ numGroups r) :
    ∃ res, extract_items text pats = Except.ok res ∧
      (∀ item p r, (item, p) ∈ pats → compileRegex p = Except.ok r →
        (∀ i, matchesAt r text.toList i = false) → lookupKey item res = none) ∧
      ((∀ q ∈ pats, ∀ r, compileRegex q.2 = Except.ok r →
          ∀ i, matchesAt r text.toList i = false) → res = []) := by
  refine ⟨extractSpec text pats, extract_items_ok text pats hc, ?_, ?_⟩
  · intro item p r hmem hr hnm
    rw [lookupKey_extractSpec text hnd hmem hr, reSearch_eq_none hnm, Option.map_none']
  · intro hall
    rw [extractSpec, List.filterMap_eq_nil_iff]
    intro q hq
    obtain ⟨r, hr, _⟩ := hc q hq
    simp only [hr, reSearch_eq_none (hall q hq r hr), Option.map_none']

/-- C2 witness: the spec's scenario of a body with no matches,
`{"order_id": "Order #(\d+)"}` against `"No order info here."`. -/
theorem claim_C2_witness :
    ∃ res, extract_items "No order info here."
        [("order_id", "Order #(\\d+)")] = Except.ok res ∧
      (∀ item p r, (item, p) ∈ [("order_id", "Order #(\\d+)")] →
        compileRegex p = Except.ok r →
        (∀ i, matchesAt r "No order info here.".toList i = false) →
        lookupKey item res = none) ∧
      ((∀ q ∈ [("order_id", "Order #(\\d+)")], ∀ r, compileRegex q.2 = Except.ok r →
          ∀ i, matchesAt r "No order info here.".toList i = false) → res = []) :=
  claim_C2 "No order info here." [("order_id", "Order #(\\d+)")]
    (by decide)
    (by
      intro q hq
      rw [List.mem_singleton] at hq
      subst hq
      exact ⟨.concat (.char 'O') (.concat (.char 'r') (.concat (.char 'd')
        (.concat (.char 'e') (.concat (.char 'r') (.concat (.char ' ')
        (.concat (.char '#')
        (.concat (.group 1 (.concat (.concat .digitCls (.star .digitCls)) .eps))
          .eps))))))), by decide, by decide⟩)
/-- C3: when every pattern compiles and some pattern with zero capture
groups matches somewhere in the body, the extraction loop aborts with the
capture-group error (the `IndexError` of `match.group(1)`, the spec's
`CaptureGroupError`); it does not recover or skip the field. -/
theorem claim_C3 (text : String) (pats : List (String × String))
    (hall : ∀ q ∈ pats, ∃ r, compileRegex q.2 = Except.ok r)
    (hbad : ∃ q ∈ pats, ∃ r, compileRegex q.2 = Except.ok r ∧ numGroups r = 0 ∧
      ∃ i, matchesAt r text.toList i = true) :
    extract_items text pats = Except.error ExtractError.captureGroupError := by
  induction pats with
  | nil =>
      obtain ⟨q, hq, _⟩ := hbad
      exact absurd hq (List.not_mem_nil q)
  | cons a t ih =>
      obtain ⟨a1, a2⟩ := a
      obtain ⟨r, hr⟩ := hall (a1, a2) (List.mem_cons_self _ _)
      have hallt : ∀ q ∈ t, ∃ r', compileRegex q.2 = Except.ok r' :=
        fun q hq => hall q (List.mem_cons_of_mem _ hq)
      obtain ⟨q, hq, r', hr', hz', i', hi'⟩ := hbad
      rcases List.mem_cons.mp hq with heq | hqt
      · have h2 : compileRegex a2 = Except.ok r' := by
          rw [heq] at hr'
          exact hr'
        have hrr : r' = r := Except.ok.inj (h2.symm.trans hr)
        subst hrr
        have hsome : (reSearch r' text.toList).isSome = true :=
          (searchAux_isSome_iff r' text.toList).mpr ⟨i', hi'⟩
        obtain ⟨g, hg⟩ := Option.isSome_iff_exists.mp hsome
        simp only [extract_items, hr, hg, getGroup1, if_pos hz']
      · have ht := ih hallt ⟨q, hqt, r', hr', hz', i', hi'⟩
        cases hsr : reSearch r text.toList with
        | some g =>
            cases hgg : getGroup1 r g with
            | error e =>
                have he : ExtractError.captureGroupError = e := by
                  by_cases hz : numGroups r = 0
                  · rw [getGroup1, if_pos hz] at hgg
                    exact Except.error.inj hgg
                  · rw [getGroup1, if_neg hz] at hgg
                    simp at hgg
                subst he
                simp only [extract_items, hr, hsr, hgg]
            | ok v =>
                simp only [extract_items, hr, hsr, hgg, ht]
        | none =>
            simp only [extract_items, hr, hsr]
            exact ht

/-- C3 witness: the group-free pattern `Order #\d+` matching in
`"Order #4521 shipped."` aborts the extraction. -/
theorem claim_C3_witness :
    extract_items "Order #4521 shipped." [("order_id", "Order #\\d+")] =
      Except.error ExtractError.captureGroupError :=
  claim_C3 "Order #4521 shipped." [("order_id", "Order #\\d+")]
    (by
      intro q hq
      rw [List.mem_singleton] at hq
      subst hq
      exact ⟨.concat (.char 'O') (.concat (.char 'r') (.concat (.char 'd')
        (.concat (.char 'e') (.concat (.char 'r') (.concat (.char ' ')
        (.concat (.char '#')
        (.concat (.concat .digitCls (.star .digitCls)) .eps))))))), by decide⟩)
    ⟨("order_id", "Order #\\d+"), by decide,
      .concat (.char 'O') (.concat (.char 'r') (.concat (.char 'd')
        (.concat (.char 'e') (.concat (.char 'r') (.concat (.char ' ')
        (.concat (.char '#')
        (.concat (.concat .digitCls (.star .digitCls)) .eps))))))),
      by decide, by decide, 0, by decide⟩

/-- C10: on a valid pattern mapping, a pattern that matches while its first
capture group does not participate in the committed match yields an entry
for its field whose stored value is null (`None`) — the field is present in
the result, not omitted, and no error is raised. -/
theorem claim_C10 (text : String) (pats : List (String × String))
    (item p : String) (r : Regex) (g : Groups)
    (hnd : (pats.map Prod.fst).Nodup)
    (hc : ∀ q ∈ pats, ∃ r', compileRegex q.2 = Except.ok r' ∧ 1 ≤ numGroups r')
    (hmem : (item, p) ∈ pats) (hr : compileRegex p = Except.ok r)
    (hs : reSearch r text.toList = some g) (hg1 : lookupNum 1 g = none) :
    ∃ res, extract_items text pats = Except.ok res ∧
      lookupKey item res = some none := by
  refine ⟨extractSpec text pats, extract_items_ok text pats hc, ?_⟩
  rw [lookupKey_extractSpec text hnd hmem hr, hs, Option.map_some', hg1, Option.map_none']

/-- C10 witness: the pattern `(a)|b` matches `"b"` through its right
alternative, so group 1 does not participate and the field comes back
mapped to `None`. -/
theorem claim_C10_witness :
    ∃ res, extract_items "b" [("f", "(a)|b")] = Except.ok res ∧
      lookupKey "f" res = some none :=
  claim_C10 "b" [("f", "(a)|b")] "f" "(a)|b"
    (.alt (.concat (.group 1 (.concat (.char 'a') .eps)) .eps)
      (.concat (.char 'b') .eps)) []
    (by decide)
    (by
      intro q hq
      rw [List.mem_singleton] at hq
      subst hq
      exact ⟨.alt (.concat (.group 1 (.concat (.char 'a') .eps)) .eps)
        (.concat (.char 'b') .eps), by decide, by decide⟩)
    (by decide) (by decide) (by decide) (by decide)

/-- C6: pattern loading performs no validation of the patterns — it
returns the parsed mapping verbatim, whatever the pattern strings are —
and an invalid pattern's compile error surfaces only inside the extraction
loop, when `re.compile` is first applied to it (provided the patterns
before it are themselves well formed, so that the loop reaches it). -/
theorem claim_C6 :
    (∀ doc : List (String × String), load_regex_patterns doc = doc) ∧
    (∀ (text : String) (pre : List (String × String)) (item p e : String)
        (rest : List (String × String)),
      (∀ q ∈ pre, ∃ r, compileRegex q.2 = Except.ok r ∧ 1 ≤ numGroups r) →
      compileRegex p = Except.error e →
      extract_items text (pre ++ (item, p) :: rest) =
        Except.error (ExtractError.regexCompileError e)) := by
  constructor
  · intro doc
    rfl
  · intro text pre
    induction pre with
    | nil =>
        intro item p e rest _ hp
        simp only [List.nil_append, extract_items, hp]
    | cons a t ih =>
        intro item p e rest hpre hp
        obtain ⟨a1, a2⟩ := a
        obtain ⟨r, hr, hg⟩ := hpre (a1, a2) (List.mem_cons_self _ _)
        have hg0 : numGroups r ≠ 0 := by omega
        have htail := ih item p e rest (fun q hq => hpre q (List.mem_cons_of_mem _ hq)) hp
        rw [List.cons_append]
        cases hsr : reSearch r text.toList with
        | some g =>
            simp only [extract_items, hr, hsr, getGroup1, if_neg hg0, htail]
        | none =>
            simp only [extract_items, hr, hsr]
            exact htail

/-- C6 witness: the invalid pattern `"("` loads untouched, and extraction
on it fails with the deferred compile error. -/
theorem claim_C6_witness :
    load_regex_patterns [("field", "(")] = [("field", "(")] ∧
    extract_items "x" [("field", "(")] =
      Except.error (ExtractError.regexCompileError
        "missing ), unterminated subpattern") :=
  ⟨claim_C6.1 [("field", "(")],
    claim_C6.2 "x" [] "field" "(" "missing ), unterminated subpattern" []
      (fun q hq => absurd hq (List.not_mem_nil q)) (by decide)⟩

/-- Extraction loop with the `re` module's compiled-pattern cache made
explicit (the spec's "hidden mutable state in pattern compilation /
caching"): the cache maps pattern strings to compiled regexes, is consulted
before compiling, and is extended on a miss; the final cache is returned
with the result.  Modelled from the spec: CPython's `re._cache` is not part
of this repository, this is its documented lookup-before-compile
behaviour. -/
def extract_items_cached (text : String) :
    List (String × String) → List (String × Regex) →
      Except ExtractError (List (String × Option String) × List (String × Regex))
  | [], cache => .ok ([], cache)
  | (item, pattern) :: rest, cache =>
    let compiled : Except String (Regex × List (String × Regex)) :=
      match lookupKey pattern cache with
      | some r => .ok (r, cache)
      | none =>
        match compileRegex pattern with
        | .ok r => .ok (r, (pattern, r) :: cache)
        | .error e => .error e
    match compiled with
    | .error e => .error (.regexCompileError e)
    | .ok (regex, cache1) =>
      match reSearch regex text.toList with
      | some g =>
        match getGroup1 regex g with
        | .error e => .error e
        | .ok v =>
          match extract_items_cached text rest cache1 with
          | .error e => .error e
          | .ok (tl, cache2) => .ok ((item, v) :: tl, cache2)
      | none => extract_items_cached text rest cache1

/-- A hit in a sound cache is the pattern's own compilation result. -/
theorem lookupKey_cache_sound {cache : List (String × Regex)}
    (hcache : ∀ q ∈ cache, compileRegex q.1 = Except.ok q.2)
    {p : String} {r : Regex} (h : lookupKey p cache = some r) :
    compileRegex p = Except.ok r := by
  induction cache with
  | nil => simp [lookupKey] at h
  | cons a t ih =>
      obtain ⟨a1, a2⟩ := a
      rw [lookupKey] at h
      by_cases hk : a1 = p
      · rw [if_pos hk] at h
        have := hcache (a1, a2) (List.mem_cons_self _ _)
        rw [hk] at this
        rw [Option.some.inj h] at this
        exact this
      · rw [if_neg hk] at h
        exact ih (fun q hq => hcache q (List.mem_cons_of_mem _ hq)) h

/-- C9: extraction is deterministic and free of hidden mutable state — for
a fixed `(body, patterns)` pair the cached loop computes, from any sound
starting cache (in particular the one a first invocation left behind), the
very same result mapping as the cache-free loop, and the pattern mapping
itself is never modified (`load_regex_patterns` returns it verbatim and
both loops only read it). -/
theorem claim_C9 (text : String) (pats : List (String × String))
    (cache : List (String × Regex))
    (hcache : ∀ q ∈ cache, compileRegex q.1 = Except.ok q.2) :
    ∃ cache2, extract_items_cached text pats cache =
      Except.map (fun res => (res, cache2)) (extract_items text pats) := by
  induction pats generalizing cache with
  | nil => exact ⟨cache, rfl⟩
  | cons a t ih =>
      obtain ⟨item, pattern⟩ := a
      have hstep : ∀ (r : Regex) (cache1 : List (String × Regex)),
          (∀ q ∈ cache1, compileRegex q.1 = Except.ok q.2) →
          compileRegex pattern = Except.ok r →
          (match lookupKey pattern cache with
            | some r' => Except.ok (r', cache)
            | none =>
              match compileRegex pattern with
              | .ok r' => Except.ok (r', (pattern, r') :: cache)
              | .error e => Except.error e) =
            (Except.ok (r, cache1) : Except String (Regex × List (String × Regex))) →
          ∃ cache2, extract_items_cached text ((item, pattern) :: t) cache =
            Except.map (fun res => (res, cache2))
              (extract_items text ((item, pattern) :: t)) := by
        intro r cache1 hc1 hcr hsel
        cases hsr : reSearch r text.toList with
        | some g =>
            cases hgg : getGroup1 r g with
            | error e =>
                refine ⟨cache1, ?_⟩
                rw [extract_items_cached, hsel]
                simp only [extract_items, hcr, hsr, hgg, Except.map]
            | ok v =>
                obtain ⟨c2, hc2⟩ := ih cache1 hc1
                refine ⟨c2, ?_⟩
                rw [extract_items_cached, hsel]
                simp only [extract_items, hcr, hsr, hgg, hc2]
                cases ht : extract_items text t with
                | error e => simp [ht, Except.map]
                | ok tl => simp [ht, Except.map]
        | none =>
            obtain ⟨c2, hc2⟩ := ih cache1 hc1
            refine ⟨c2, ?_⟩
            rw [extract_items_cached, hsel]
            simp only [extract_items, hcr, hsr]
            exact hc2
      cases hl : lookupKey pattern cache with
      | some r =>
          exact hstep r cache hcache (lookupKey_cache_sound hcache hl) (by rw [hl])
      | none =>
          cases hcr : compileRegex pattern with
          | ok r =>
              refine hstep r ((pattern, r) :: cache) ?_ hcr (by rw [hl, hcr])
              intro q hq
              rcases List.mem_cons.mp hq with heq | hqt
              · rw [heq]
                exact hcr
              · exact hcache q hqt
          | error e =>
              refine ⟨cache, ?_⟩
              rw [extract_items_cached]
              simp only [hl, hcr, extract_items, Except.map]

/-- C9 witness: starting from the empty (trivially sound) cache on the
spec's scenario input. -/
theorem claim_C9_witness :
    ∃ cache2, extract_items_cached "Your Order #4521 has shipped."
        [("order_id", "Order #(\\d+)")] [] =
      Except.map (fun res => (res, cache2))
        (extract_items "Your Order #4521 has shipped." [("order_id", "Order #(\\d+)")]) :=
  claim_C9 "Your Order #4521 has shipped." [("order_id", "Order #(\\d+)")] []
    (fun q hq => absurd hq (List.not_mem_nil q))

/-- Character of a single decimal digit (the low digit of `d`). -/
def digitChar (d : Nat) : Char :=
  match d % 10 with
  | 0 => '0' | 1 => '1' | 2 => '2' | 3 => '3' | 4 => '4'
  | 5 => '5' | 6 => '6' | 7 => '7' | 8 => '8' | _ => '9'

/-- Numeric value of a decimal digit character, `none` otherwise. -/
def digitVal (c : Char) : Option Nat :=
  if c = '0' then some 0 else if c = '1' then some 1 else if c = '2' then some 2
  else if c = '3' then some 3 else if c = '4' then some 4 else if c = '5' then some 5
  else if c = '6' then some 6 else if c = '7' then some 7 else if c = '8' then some 8
  else if c = '9' then some 9 else none

/-- Two-digit zero-padded rendering (strftime `%m`, `%d`, `%H`, `%M`,
`%S` on the values a `datetime` can hold). -/
def pad2 (x : Nat) : List Char := [digitChar (x / 10), digitChar (x % 10)]

/-- Four-digit zero-padded rendering (strftime `%Y` on `datetime` years,
which are between 1 and 9999). -/
def pad4 (y : Nat) : List Char :=
  [digitChar (y / 1000), digitChar (y / 100 % 10), digitChar (y / 10 % 10),
   digitChar (y % 10)]

/-- Wall-clock timestamp as the program uses it (a Python `datetime`
restricted to its date and time fields). -/
structure DateTime : Type where
  year : Nat
  month : Nat
  day : Nat
  hour : Nat
  minute : Nat
  second : Nat
deriving DecidableEq, Repr

/-- Gregorian leap-year rule. -/
def isLeapYear (y : Nat) : Bool :=
  y % 4 = 0 && (y % 100 != 0 || y % 400 = 0)

/-- Length of a month, as `datetime` validates the day field. -/
def daysInMonth (y m : Nat) : Nat :=
  if m = 2 then (if isLeapYear y then 29 else 28)
  else if m = 4 ∨ m = 6 ∨ m = 9 ∨ m = 11 then 30 else 31

/-- Invariant of a constructed `datetime`: the constructor validates every
field (raising `ValueError` otherwise, which `strptime` propagates). -/
def validDateTime (dt : DateTime) : Bool :=
  1 ≤ dt.year && dt.year ≤ 9999 && 1 ≤ dt.month && dt.month ≤ 12 &&
  1 ≤ dt.day && dt.day ≤ daysInMonth dt.year dt.month &&
  dt.hour ≤ 23 && dt.minute ≤ 59 && dt.second ≤ 59

/-- Character list of `strftime('%Y-%m-%d %H:%M:%S')`. -/
def fmtChars (dt : DateTime) : List Char :=
  pad4 dt.year ++ '-' :: (pad2 dt.month ++ '-' :: (pad2 dt.day ++ ' ' ::
    (pad2 dt.hour ++ ':' :: (pad2 dt.minute ++ ':' :: pad2 dt.second))))

/-- Model of `datetime.strftime('%Y-%m-%d %H:%M:%S')` (the format string
used at src/main.py line 84 and, for re-serialization, the one at lines
112-113). -/
def formatDateTime (dt : DateTime) : String := String.mk (fmtChars dt)

/-- Shape check "looks like `YYYY-MM-DD HH:MM:SS`": 19 characters, digits
in the numeric positions, the right separators between them. -/
def isTimestampFormat (s : String) : Bool :=
  match s.toList with
  | [y1, y2, y3, y4, d1, m1, m2, d2, a1, a2, sp, h1, h2, c1, n1, n2, c2, e1, e2] =>
      y1.isDigit && y2.isDigit && y3.isDigit && y4.isDigit && d1 = '-' &&
      m1.isDigit && m2.isDigit && d2 = '-' && a1.isDigit && a2.isDigit &&
      sp = ' ' && h1.isDigit && h2.isDigit && c1 = ':' && n1.isDigit && n2.isDigit &&
      c2 = ':' && e1.isDigit && e2.isDigit
  | _ => false

/-- Two-digit numeric field matcher: both characters must be digits and
the pair must pass `f` (one alternative of a CPython `_strptime` field
regex such as `[0-5]\d`); candidates carry the unconsumed input. -/
def pPair (f : Nat → Nat → Option Nat) (s : List Char) : List (Nat × List Char) :=
  match s with
  | c1 :: c2 :: rest =>
    (match digitVal c1, digitVal c2 with
     | some a, some b =>
       (match f a b with
        | some v => [(v, rest)]
        | none => [])
     | _, _ => [])
  | _ => []

/-- One-digit numeric field matcher (`\d` or `[1-9]` alternatives). -/
def pOne (f : Nat → Option Nat) (s : List Char) : List (Nat × List Char) :=
  match s with
  | c1 :: rest =>
    (match digitVal c1 with
     | some a =>
       (match f a with
        | some v => [(v, rest)]
        | none => [])
     | none => [])
  | [] => []

/-- `%Y` field of `_strptime`: exactly four digits (`\d\d\d\d`). -/
def pYear (s : List Char) : List (Nat × List Char) :=
  match s with
  | c1 :: c2 :: c3 :: c4 :: rest =>
    (match digitVal c1, digitVal c2, digitVal c3, digitVal c4 with
     | some a, some b, some c, some d => [(1000 * a + 100 * b + 10 * c + d, rest)]
     | _, _, _, _ => [])
  | _ => []

/-- `%m` field of `_strptime`: `1[0-2]|0[1-9]|[1-9]`, alternatives in
regex priority order. -/
def pMonth (s : List Char) : List (Nat × List Char) :=
  pPair (fun a b => if a = 1 ∧ b ≤ 2 then some (10 + b) else none) s ++
  pPair (fun a b => if a = 0 ∧ 1 ≤ b then some b else none) s ++
  pOne (fun a => if 1 ≤ a then some a else none) s

/-- `%d` field of `_strptime`: `3[01]|[1-2]\d|0[1-9]|[1-9]`. -/
def pDay (s : List Char) : List (Nat × List Char) :=
  pPair (fun a b => if a = 3 ∧ b ≤ 1 then some (30 + b) else none) s ++
  pPair (fun a b => if 1 ≤ a ∧ a ≤ 2 then some (10 * a + b) else none) s ++
  pPair (fun a b => if a = 0 ∧ 1 ≤ b then some b else none) s ++
  pOne (fun a => if 1 ≤ a then some a else none) s

/-- `%H` field of `_strptime`: `2[0-3]|[0-1]\d|\d`. -/
def pHour (s : List Char) : List (Nat × List Char) :=
  pPair (fun a b => if a = 2 ∧ b ≤ 3 then some (20 + b) else none) s ++
  pPair (fun a b => if a ≤ 1 then some (10 * a + b) else none) s ++
  pOne (fun a => some a) s

/-- `%M` field of `_strptime`: `[0-5]\d|\d`. -/
def pMinute (s : List Char) : List (Nat × List Char) :=
  pPair (fun a b => if a ≤ 5 then some (10 * a + b) else none) s ++
  pOne (fun a => some a) s

/-- `%S` field of `_strptime`: `6[0-1]|[0-5]\d|\d` (leap seconds pass the
regex and are rejected later by the `datetime` constructor). -/
def pSecond (s : List Char) : List (Nat × List Char) :=
  pPair (fun a b => if a = 6 ∧ b ≤ 1 then some (60 + b) else none) s ++
  pPair (fun a b => if a ≤ 5 then some (10 * a + b) else none) s ++
  pOne (fun a => some a) s

/-- Literal `-` of the format string. -/
def pDash (s : List Char) : List (List Char) :=
  match s with
  | c :: rest => if c = '-' then [rest] else []
  | [] => []

/-- Literal `:` of the format string. -/
def pColon (s : List Char) : List (List Char) :=
  match s with
  | c :: rest => if c = ':' then [rest] else []
  | [] => []

/-- Python regex `\s` class membership. -/
def wsChar (c : Char) : Bool :=
  c = ' ' || c = '\t' || c = '\n' || c = '\r' || c = '\x0b' || c = '\x0c'

/-- Candidates of `\s+` (`_strptime` replaces the literal blank of the
format with `\s+`): consume one or more whitespace characters, greedy
first. -/
def pWsAux : List Char → List (List Char)
  | [] => []
  | c :: rest => if wsChar c then pWsAux rest ++ [rest] else []

/-- Whitespace separator of the format string. -/
def pWs (s : List Char) : List (List Char) := pWsAux s

/-- All parses of the whole `'%Y-%m-%d %H:%M:%S'` regex, in backtracking
priority order, each with its unconsumed remainder; the regex engine
commits to the head. -/
def dtCandidates (s : List Char) : List (DateTime × List Char) :=
  (pYear s).flatMap fun py =>
    (pDash py.2).flatMap fun s2 =>
      (pMonth s2).flatMap fun pm =>
        (pDash pm.2).flatMap fun s4 =>
          (pDay s4).flatMap fun pd =>
            (pWs pd.2).flatMap fun s6 =>
              (pHour s6).flatMap fun ph =>
                (pColon ph.2).flatMap fun s8 =>
                  (pMinute s8).flatMap fun pmi =>
                    (pColon pmi.2).flatMap fun s10 =>
                      (pSecond s10).flatMap fun ps =>
                        [(DateTime.mk py.1 pm.1 pd.1 ph.1 pmi.1 ps.1, ps.2)]

/-- Model of `datetime.strptime(s, '%Y-%m-%d %H:%M:%S')` (src/main.py
lines 112-113): take the committed regex match, reject it if input
remains unconverted, then let the `datetime` constructor validate the
fields; `none` is the `ValueError` that aborts the run. -/
def parseTimestamp (s : String) : Option DateTime :=
  match (dtCandidates s.toList).head? with
  | some (dt, rest) => if rest.isEmpty && validDateTime dt then some dt else none
  | none => none

example : parseTimestamp "2024-01-02 03:04:05" = some ⟨2024, 1, 2, 3, 4, 5⟩ := by decide

example : parseTimestamp "2024-1-2 3:4:5" = some ⟨2024, 1, 2, 3, 4, 5⟩ := by decide

example : parseTimestamp "2024-13-01 00:00:00" = none := by decide

example : parseTimestamp "2024-02-30 00:00:00" = none := by decide

example : parseTimestamp "2024-02-29 00:00:00" = some ⟨2024, 2, 29, 0, 0, 0⟩ := by decide

example : parseTimestamp "2024-01-02  03:04:05" = some ⟨2024, 1, 2, 3, 4, 5⟩ := by decide

example : formatDateTime ⟨2024, 1, 2, 3, 4, 5⟩ = "2024-01-02 03:04:05" := by decide

/-- The rendered digit of `d` reads back as `d % 10`. -/
theorem digitVal_digitChar (d : Nat) : digitVal (digitChar d) = some (d % 10) := by
  have h : d % 10 < 10 := Nat.mod_lt d (by norm_num)
  simp only [digitChar]
  revert h
  generalize d % 10 = e
  intro h
  interval_cases e <;> decide

/-- Digit characters are digits. -/
theorem digitChar_isDigit (d : Nat) : (digitChar d).isDigit = true := by
  have h : d % 10 < 10 := Nat.mod_lt d (by norm_num)
  simp only [digitChar]
  revert h
  generalize d % 10 = e
  intro h
  interval_cases e <;> decide

/-- A digit character is none of the non-digit separators. -/
theorem digitChar_ne (d : Nat) (c : Char) (hc : digitVal c = none) : digitChar d ≠ c := by
  intro he
  rw [← he, digitVal_digitChar] at hc
  simp at hc

/-- Digit characters are not whitespace. -/
theorem wsChar_digitChar (d : Nat) : wsChar (digitChar d) = false := by
  have h : d % 10 < 10 := Nat.mod_lt d (by norm_num)
  simp only [digitChar]
  revert h
  generalize d % 10 = e
  intro h
  interval_cases e <;> decide

/-- The dash matcher consumes a literal dash. -/
theorem pDash_cons (rest : List Char) : pDash ('-' :: rest) = [rest] := rfl

/-- The dash matcher rejects a digit. -/
theorem pDash_digit (k : Nat) (rest : List Char) : pDash (digitChar k :: rest) = [] := by
  simp only [pDash]
  rw [if_neg (digitChar_ne k '-' (by decide))]

/-- The colon matcher consumes a literal colon. -/
theorem pColon_cons (rest : List Char) : pColon (':' :: rest) = [rest] := rfl

/-- The colon matcher rejects a digit. -/
theorem pColon_digit (k : Nat) (rest : List Char) : pColon (digitChar k :: rest) = [] := by
  simp only [pColon]
  rw [if_neg (digitChar_ne k ':' (by decide))]

/-- The whitespace matcher rejects a digit. -/
theorem pWs_digit (k : Nat) (rest : List Char) : pWs (digitChar k :: rest) = [] := by
  simp only [pWs, pWsAux, wsChar_digitChar]
  simp

/-- One blank before a digit is consumed exactly. -/
theorem pWs_space_digit (k : Nat) (rest : List Char) :
    pWs (' ' :: digitChar k :: rest) = [digitChar k :: rest] := by
  simp only [pWs, pWsAux, wsChar_digitChar, show wsChar ' ' = true from rfl]
  simp

/-- The `%Y` matcher reads back a zero-padded four-digit year exactly. -/
theorem pYear_pad (y : Nat) (hy : y ≤ 9999) (rest : List Char) :
    pYear (digitChar (y / 1000) :: digitChar (y / 100 % 10) :: digitChar (y / 10 % 10) ::
      digitChar (y % 10) :: rest) = [(y, rest)] := by
  have e1 : y / 1000 % 10 = y / 1000 := by omega
  have hval : 1000 * (y / 1000) + 100 * (y / 100 % 10 % 10) + 10 * (y / 10 % 10 % 10) +
      y % 10 % 10 = y := by omega
  simp only [pYear, digitVal_digitChar, e1, hval]

/-- The `%m` matcher on a zero-padded month followed by a non-digit
continuation: the committed candidate is the month itself, and every
stray candidate leaves a digit in front, killing the continuation. -/
theorem pMonth_then {α : Type} (mo : Nat) (h1 : 1 ≤ mo) (h2 : mo ≤ 12) (rest : List Char)
    (f : Nat × List Char → List α)
    (hf : ∀ v k r', f (v, digitChar k :: r') = []) :
    (pMonth (digitChar (mo / 10) :: digitChar (mo % 10) :: rest)).flatMap f = f (mo, rest) := by
  by_cases hle : mo ≤ 9
  · have ha : mo / 10 % 10 = 0 := by omega
    have hb : mo % 10 % 10 = mo := by omega
    simp only [pMonth, pPair, pOne, digitVal_digitChar, ha, hb]
    simp [h1, List.flatMap_append]
  · have ha : mo / 10 % 10 = 1 := by omega
    have hb2 : mo % 10 % 10 ≤ 2 := by omega
    have hval : 10 + mo % 10 % 10 = mo := by omega
    simp only [pMonth, pPair, pOne, digitVal_digitChar, ha, hb2, hval]
    simp [hb2, hf, List.flatMap_append]

/-- The `%d` matcher on a zero-padded day followed by a non-digit
continuation commits to the day itself. -/
theorem pDay_then {α : Type} (d : Nat) (h1 : 1 ≤ d) (h2 : d ≤ 31) (rest : List Char)
    (f : Nat × List Char → List α)
    (hf : ∀ v k r', f (v, digitChar k :: r') = []) :
    (pDay (digitChar (d / 10) :: digitChar (d % 10) :: rest)).flatMap f = f (d, rest) := by
  by_cases hle : d ≤ 9
  · have ha : d / 10 % 10 = 0 := by omega
    have hb : d % 10 % 10 = d := by omega
    simp only [pDay, pPair, pOne, digitVal_digitChar, ha, hb]
    simp [h1, List.flatMap_append]
  · by_cases hle2 : d ≤ 29
    · have ha : d / 10 % 10 = d / 10 := by omega
      have ha1 : 1 ≤ d / 10 := by omega
      have ha2 : d / 10 ≤ 2 := by omega
      have ha3 : ¬(d / 10 = 3 ∧ d % 10 % 10 ≤ 1) := by omega
      have ha4 : ¬(d / 10 = 0 ∧ 1 ≤ d % 10 % 10) := by omega
      have hval : 10 * (d / 10) + d % 10 % 10 = d := by omega
      have hc3 : ¬(d / 10 = 3 ∧ d % 10 ≤ 1) := by omega
      have hc4 : ¬(d / 10 = 0 ∧ 1 ≤ d % 10) := by omega
      simp only [pDay, pPair, pOne, digitVal_digitChar, ha, hval]
      simp [ha1, ha2, ha3, ha4, hc3, hc4, hf, List.flatMap_append]
    · have ha : d / 10 % 10 = 3 := by omega
      have hb1 : d % 10 % 10 ≤ 1 := by omega
      have hb3 : ¬(1 ≤ (3 : Nat) ∧ (3 : Nat) ≤ 2) := by omega
      have hval : 30 + d % 10 % 10 = d := by omega
      have hb1' : d % 10 ≤ 1 := by omega
      simp only [pDay, pPair, pOne, digitVal_digitChar, ha, hval]
      simp [hb1, hb1', hb3, hf, List.flatMap_append]

/-- The `%H` matcher on a zero-padded hour followed by a non-digit
continuation commits to the hour itself. -/
theorem pHour_then {α : Type} (h : Nat) (h2 : h ≤ 23) (rest : List Char)
    (f : Nat × List Char → List α)
    (hf : ∀ v k r', f (v, digitChar k :: r') = []) :
    (pHour (digitChar (h / 10) :: digitChar (h % 10) :: rest)).flatMap f = f (h, rest) := by
  by_cases hle : h ≤ 19
  · have ha : h / 10 % 10 = h / 10 := by omega
    have ha1 : h / 10 ≤ 1 := by omega
    have ha2 : ¬(h / 10 = 2 ∧ h % 10 % 10 ≤ 3) := by omega
    have hval : 10 * (h / 10) + h % 10 % 10 = h := by omega
    have hc2 : ¬(h / 10 = 2 ∧ h % 10 ≤ 3) := by omega
    simp only [pHour, pPair, pOne, digitVal_digitChar, ha, hval]
    simp [ha1, ha2, hc2, hf, List.flatMap_append]
  · have ha : h / 10 % 10 = 2 := by omega
    have hb1 : h % 10 % 10 ≤ 3 := by omega
    have ha2 : ¬((2 : Nat) ≤ 1) := by omega
    have hval : 20 + h % 10 % 10 = h := by omega
    have hb1' : h % 10 ≤ 3 := by omega
    simp only [pHour, pPair, pOne, digitVal_digitChar, ha, hval]
    simp [hb1, hb1', ha2, hf, List.flatMap_append]

/-- The `%M` matcher on a zero-padded minute followed by a non-digit
continuation commits to the minute itself. -/
theorem pMinute_then {α : Type} (m : Nat) (h2 : m ≤ 59) (rest : List Char)
    (f : Nat × List Char → List α)
    (hf : ∀ v k r', f (v, digitChar k :: r') = []) :
    (pMinute (digitChar (m / 10) :: digitChar (m % 10) :: rest)).flatMap f = f (m, rest) := by
  have ha : m / 10 % 10 = m / 10 := by omega
  have ha1 : m / 10 ≤ 5 := by omega
  have hval : 10 * (m / 10) + m % 10 % 10 = m := by omega
  simp only [pMinute, pPair, pOne, digitVal_digitChar, ha, hval]
  simp [ha1, hf, List.flatMap_append]

/-- The `%S` matcher on a zero-padded second: the committed candidate is
the second itself; one lower-priority candidate (reading only the first
digit) survives behind it. -/
theorem pSecond_pad {α : Type} (e : Nat) (h2 : e ≤ 59) (rest : List Char)
    (f : Nat × List Char → List α) :
    (pSecond (digitChar (e / 10) :: digitChar (e % 10) :: rest)).flatMap f =
      f (e, rest) ++ f (e / 10, digitChar (e % 10) :: rest) := by
  have ha : e / 10 % 10 = e / 10 := by omega
  have ha1 : e / 10 ≤ 5 := by omega
  have ha2 : ¬(e / 10 = 6 ∧ e % 10 % 10 ≤ 1) := by omega
  have hval : 10 * (e / 10) + e % 10 % 10 = e := by omega
  have hc2 : ¬(e / 10 = 6 ∧ e % 10 ≤ 1) := by omega
  simp only [pSecond, pPair, pOne, digitVal_digitChar, ha, hval]
  simp [ha1, ha2, hc2, List.flatMap_append]

/-- No month is longer than 31 days. -/
theorem daysInMonth_le (y m : Nat) : daysInMonth y m ≤ 31 := by
  rw [daysInMonth]
  split
  · split <;> omega
  · split <;> omega

/-- On the canonical rendering of a valid timestamp, the whole-format
regex commits to the timestamp itself with nothing unconsumed; one
lower-priority candidate (a one-digit seconds read) trails behind it. -/
theorem dtCandidates_fmt (dt : DateTime) (hv : validDateTime dt = true) :
    dtCandidates (fmtChars dt) =
      [(dt, []),
       (DateTime.mk dt.year dt.month dt.day dt.hour dt.minute (dt.second / 10),
        [digitChar (dt.second % 10)])] := by
  obtain ⟨y, mo, d, h, mi, sec⟩ := dt
  simp only [validDateTime, Bool.and_eq_true, decide_eq_true_eq] at hv
  obtain ⟨⟨⟨⟨⟨⟨⟨⟨hy1, hy2⟩, hmo1⟩, hmo2⟩, hd1⟩, hd2⟩, hh⟩, hmi⟩, hsec⟩ := hv
  have hd31 : d ≤ 31 := le_trans hd2 (daysInMonth_le y mo)
  simp only [dtCandidates, fmtChars, pad4, pad2, List.cons_append, List.nil_append]
  rw [pYear_pad y hy2]
  simp only [List.flatMap_cons, List.flatMap_nil, List.append_nil]
  rw [pDash_cons]
  simp only [List.flatMap_cons, List.flatMap_nil, List.append_nil]
  rw [pMonth_then mo hmo1 hmo2]
  · simp only [List.flatMap_cons, List.flatMap_nil, List.append_nil]
    rw [pDash_cons]
    simp only [List.flatMap_cons, List.flatMap_nil, List.append_nil]
    rw [pDay_then d hd1 hd31]
    · simp only [List.flatMap_cons, List.flatMap_nil, List.append_nil]
      rw [pWs_space_digit]
      simp only [List.flatMap_cons, List.flatMap_nil, List.append_nil]
      rw [pHour_then h hh]
      · simp only [List.flatMap_cons, List.flatMap_nil, List.append_nil]
        rw [pColon_cons]
        simp only [List.flatMap_cons, List.flatMap_nil, List.append_nil]
        rw [pMinute_then mi hmi]
        · simp only [List.flatMap_cons, List.flatMap_nil, List.append_nil]
          rw [pColon_cons]
          simp only [List.flatMap_cons, List.flatMap_nil, List.append_nil]
          rw [pSecond_pad sec hsec]
          simp
        · intro v k r'
          simp [pColon_digit]
      · intro v k r'
        simp [pColon_digit]
    · intro v k r'
      simp [pWs_digit]
  · intro v k r'
    simp [pDash_digit]

/-- Parsing the canonical rendering of a valid timestamp recovers it
exactly (strptime of strftime output under `'%Y-%m-%d %H:%M:%S'`). -/
theorem parse_format (dt : DateTime) (hv : validDateTime dt = true) :
    parseTimestamp (formatDateTime dt) = some dt := by
  rw [parseTimestamp, show (formatDateTime dt).toList = fmtChars dt from rfl,
    dtCandidates_fmt dt hv]
  simp [hv]

/-- C8 counterexample: the loader (strptime with `'%Y-%m-%d %H:%M:%S'`)
accepts the non-padded string `"2024-1-02 03:04:05"` — CPython's `%m`
field regex is `1[0-2]|0[1-9]|[1-9]`, so a single-digit month parses —
but re-serializing the parsed timestamp with the same format yields the
zero-padded `"2024-01-02 03:04:05"`, not the original string. -/
theorem claim_C8_counterexample :
    parseTimestamp "2024-1-02 03:04:05" = some (DateTime.mk 2024 1 2 3 4 5) ∧
    formatDateTime (DateTime.mk 2024 1 2 3 4 5) = "2024-01-02 03:04:05" ∧
    ("2024-01-02 03:04:05" : String) ≠ "2024-1-02 03:04:05" :=
  ⟨by decide, by decide, by decide⟩

/-- C8 amended: the round trip holds exactly for canonically zero-padded
date strings — for every valid timestamp, parsing its `strftime` rendering
succeeds and re-serializing reproduces that string; accepted non-padded
inputs (see the counterexample) re-serialize to the padded form instead. -/
theorem claim_C8 (dt : DateTime) (hv : validDateTime dt = true) :
    parseTimestamp (formatDateTime dt) = some dt ∧
    ∀ dt', parseTimestamp (formatDateTime dt) = some dt' →
      formatDateTime dt' = formatDateTime dt := by
  refine ⟨parse_format dt hv, ?_⟩
  intro dt' h
  rw [parse_format dt hv] at h
  rw [Option.some.inj h]

/-- C8 witness: the canonical string `"2024-01-02 03:04:05"`. -/
theorem claim_C8_witness :
    parseTimestamp (formatDateTime (DateTime.mk 2024 1 2 3 4 5)) =
        some (DateTime.mk 2024 1 2 3 4 5) ∧
    ∀ dt', parseTimestamp (formatDateTime (DateTime.mk 2024 1 2 3 4 5)) = some dt' →
      formatDateTime dt' = formatDateTime (DateTime.mk 2024 1 2 3 4 5) :=
  claim_C8 (DateTime.mk 2024 1 2 3 4 5) (by decide)

/-- The canonical rendering always has the `YYYY-MM-DD HH:MM:SS` shape. -/
theorem isTimestampFormat_format (dt : DateTime) :
    isTimestampFormat (formatDateTime dt) = true := by
  simp only [isTimestampFormat,
    show (formatDateTime dt).toList = fmtChars dt from rfl,
    fmtChars, pad4, pad2, List.cons_append, List.nil_append]
  simp [digitChar_isDigit]

/-- Fields of one Outlook mail item as the provider loop reads them
(`item.Subject`, `item.SenderName`, `item.ReceivedTime`, `item.Body`); the
COM session and the date-range `Restrict` filter are external, so the loop
is modelled on the already-filtered item list. -/
structure OutlookItem : Type where
  subject : String
  senderName : String
  receivedTime : DateTime
  body : String

/-- Embedding of the record-construction loop of `read_outlook_emails`
(src/main.py lines 78-87): each item becomes an `OrderedDict` whose keys
are inserted in the fixed order Subject, Sender, ReceivedTime, Body, with
`ReceivedTime` rendered by `strftime('%Y-%m-%d %H:%M:%S')`. -/
def read_outlook_emails (items : List OutlookItem) : List (List (String × String)) :=
  items.map fun item =>
    [("Subject", item.subject), ("Sender", item.senderName),
     ("ReceivedTime", formatDateTime item.receivedTime), ("Body", item.body)]

/-- C5: every message record the provider constructs is an ordered mapping
whose keys are exactly Subject, Sender, ReceivedTime, Body in that
insertion order (values are strings by construction), and the
ReceivedTime value is formatted as `YYYY-MM-DD HH:MM:SS`. -/
theorem claim_C5 (items : List OutlookItem)
    (hv : ∀ it ∈ items, validDateTime it.receivedTime = true) :
    ∀ e ∈ read_outlook_emails items,
      e.map Prod.fst = ["Subject", "Sender", "ReceivedTime", "Body"] ∧
      ∀ v, ("ReceivedTime", v) ∈ e → isTimestampFormat v = true := by
  intro e he
  rw [read_outlook_emails, List.mem_map] at he
  obtain ⟨it, hit, rfl⟩ := he
  refine ⟨rfl, ?_⟩
  intro v hv'
  simp only [List.mem_cons, List.not_mem_nil, or_false, Prod.mk.injEq] at hv'
  rcases hv' with ⟨h, _⟩ | ⟨h, _⟩ | ⟨_, h⟩ | ⟨h, _⟩
  · exact absurd h (by decide)
  · exact absurd h (by decide)
  · rw [h]
    exact isTimestampFormat_format it.receivedTime
  · exact absurd h (by decide)

/-- C5 witness: a single item with a valid receipt time, its record's key
row and its rendered ReceivedTime shape. -/
theorem claim_C5_witness :
    ([("Subject", "Hello"), ("Sender", "Alice"),
      ("ReceivedTime", formatDateTime (DateTime.mk 2024 1 2 3 4 5)),
      ("Body", "Body text")].map Prod.fst =
        ["Subject", "Sender", "ReceivedTime", "Body"]) ∧
    isTimestampFormat (formatDateTime (DateTime.mk 2024 1 2 3 4 5)) = true := by
  have h := claim_C5
    [OutlookItem.mk "Hello" "Alice" (DateTime.mk 2024 1 2 3 4 5) "Body text"]
    (by
      intro it hit
      rw [List.mem_singleton] at hit
      subst hit
      decide)
    [("Subject", "Hello"), ("Sender", "Alice"),
     ("ReceivedTime", formatDateTime (DateTime.mk 2024 1 2 3 4 5)),
     ("Body", "Body text")]
    (by simp [read_outlook_emails])
  exact ⟨h.1, h.2 (formatDateTime (DateTime.mk 2024 1 2 3 4 5)) (by simp)⟩

/-- Separator printed after each message (src/main.py line 127). -/
def separatorLine : String := "--------------------------------"

/-- One printed line `f'{key}: {value}'`. -/
def fieldLine (k v : String) : String := k ++ ": " ++ v

/-- Python's `str()` of an extracted value as `print` renders it: the text
itself, or `None` for a null group. -/
def pyOptStr (v : Option String) : String :=
  match v with
  | some s => s
  | none => "None"

/-- Lines printed for one message by the inner loop of `main` (src/main.py
lines 120-125): each field as `key: value`, and immediately after the
`Body` line the extracted items, each as `key2: value2`.  An extraction
exception aborts the run (Python leaves earlier lines on stdout; the
value-level model keeps only the error). -/
def emailLines (regex_patterns : List (String × String)) :
    List (String × String) → Except ExtractError (List String)
  | [] => .ok []
  | (key, value) :: rest =>
    if key = "Body" then
      match extract_items value regex_patterns with
      | .error e => .error e
      | .ok ext =>
        (emailLines regex_patterns rest).map fun tl =>
          fieldLine key value :: ((ext.map fun q => fieldLine q.1 (pyOptStr q.2)) ++ tl)
    else
      (emailLines regex_patterns rest).map fun tl => fieldLine key value :: tl

/-- Lines printed by the whole reporting loop of `main` (src/main.py lines
119-127): each message's lines, then the separator, one message fully
before the next. -/
def reportLines (regex_patterns : List (String × String)) :
    List (List (String × String)) → Except ExtractError (List String)
  | [] => .ok []
  | email :: rest =>
    match emailLines regex_patterns email with
    | .error e => .error e
    | .ok ls =>
      (reportLines regex_patterns rest).map fun more => ls ++ separatorLine :: more

/-- Block of output for one message as claim C4 describes it: the four
field labels and values in the message's key order (Subject, Sender,
ReceivedTime, Body), then one label/value line per extracted field in
pattern order, then the separator line. -/
def reportBlockSpec (ext : List (String × Option String))
    (subject sender received body : String) : List String :=
  [fieldLine "Subject" subject, fieldLine "Sender" sender,
   fieldLine "ReceivedTime" received, fieldLine "Body" body] ++
  (ext.map fun q => fieldLine q.1 (pyOptStr q.2)) ++ [separatorLine]

/-- C4: on a valid pattern mapping, the reporter prints, message by
message, the four field lines in key order, then (immediately after Body)
one line per extracted field in pattern order, then the separator —
the whole output is the concatenation of per-message blocks in message
order, with extraction results tied to the real extractor. -/
theorem claim_C4 (pats : List (String × String))
    (emails : List (String × String × String × String))
    (hc : ∀ q ∈ pats, ∃ r, compileRegex q.2 = Except.ok r ∧ 1 ≤ numGroups r) :
    (∀ b : String, extract_items b pats = Except.ok (extractSpec b pats)) ∧
    reportLines pats (emails.map fun e =>
        [("Subject", e.1), ("Sender", e.2.1), ("ReceivedTime", e.2.2.1),
         ("Body", e.2.2.2)]) =
      Except.ok (emails.flatMap fun e =>
        reportBlockSpec (extractSpec e.2.2.2 pats) e.1 e.2.1 e.2.2.1 e.2.2.2) := by
  refine ⟨fun b => extract_items_ok b pats hc, ?_⟩
  induction emails with
  | nil => rfl
  | cons e t ih =>
      have hB := extract_items_ok e.2.2.2 pats hc
      have hlines : emailLines pats
          [("Subject", e.1), ("Sender", e.2.1), ("ReceivedTime", e.2.2.1),
           ("Body", e.2.2.2)] =
          Except.ok (fieldLine "Subject" e.1 :: fieldLine "Sender" e.2.1 ::
            fieldLine "ReceivedTime" e.2.2.1 :: fieldLine "Body" e.2.2.2 ::
            ((extractSpec e.2.2.2 pats).map fun q => fieldLine q.1 (pyOptStr q.2))) := by
        simp [emailLines, hB, Except.map]
      simp only [List.map_cons, List.flatMap_cons]
      rw [reportLines, hlines, ih]
      simp [reportBlockSpec, Except.map]

/-- C4 witness: one message, one configured pattern matching the body. -/
theorem claim_C4_witness :
    (∀ b : String, extract_items b [("order_id", "Order #(\\d+)")] =
      Except.ok (extractSpec b [("order_id", "Order #(\\d+)")])) ∧
    reportLines [("order_id", "Order #(\\d+)")]
        ([("S1", "Alice", "2024-01-02 03:04:05", "Your Order #4521 has shipped.")].map
          fun e => [("Subject", e.1), ("Sender", e.2.1), ("ReceivedTime", e.2.2.1),
            ("Body", e.2.2.2)]) =
      Except.ok
        ([("S1", "Alice", "2024-01-02 03:04:05", "Your Order #4521 has shipped.")].flatMap
          fun e => reportBlockSpec (extractSpec e.2.2.2 [("order_id", "Order #(\\d+)")])
            e.1 e.2.1 e.2.2.1 e.2.2.2) :=
  claim_C4 [("order_id", "Order #(\\d+)")]
    [("S1", "Alice", "2024-01-02 03:04:05", "Your Order #4521 has shipped.")]
    (by
      intro q hq
      rw [List.mem_singleton] at hq
      subst hq
      exact ⟨.concat (.char 'O') (.concat (.char 'r') (.concat (.char 'd')
        (.concat (.char 'e') (.concat (.char 'r') (.concat (.char ' ')
        (.concat (.char '#')
        (.concat (.group 1 (.concat (.concat .digitCls (.star .digitCls)) .eps))
          .eps))))))), by decide, by decide⟩)

/-- Outcome of `parser.parse_args()` for this program: a successful parse
carrying the two (optional) path values, the help exit of `-h`/`--help`,
or an argparse usage error. -/
inductive ArgOutcome : Type where
  | success (config_file : Option String) (regex_file : Option String) : ArgOutcome
  | helpExit : ArgOutcome
  | errorExit (msg : String) : ArgOutcome
deriving DecidableEq, Repr


/-- All characters are decimal digits. -/
def allDigits : List Char → Bool
  | [] => true
  | c :: t => c.isDigit && allDigits t

/-- Body of argparse's negative-number pattern `-\d+$|-\d*\.\d+$` (the
part after the minus sign): digits, or digits around one decimal point
with a non-empty fraction. -/
def negNumBody (l : List Char) : Bool :=
  (!l.isEmpty && allDigits l) ||
  (match l.dropWhile (fun c => !(c = '.')) with
   | '.' :: frac =>
       !frac.isEmpty && allDigits (l.takeWhile fun c => !(c = '.')) && allDigits frac
   | _ => false)

/-- Token that argparse classifies as an option rather than a value: it
starts with the prefix character `-`, has at least one more character,
and does not look like a negative number (this parser declares no
negative-number-like options, so numeric-looking tokens stay values). -/
def optionLike (s : String) : Bool :=
  match s.toList with
  | '-' :: c :: rest => !negNumBody (c :: rest)
  | _ => false

/-- List-level prefix test. -/
def isPre : List Char → List Char → Bool
  | [], _ => true
  | _ :: _, [] => false
  | x :: xs, y :: ys => x = y && isPre xs ys

/-- Split a long-option token at its first `=` (argparse's
`--option=value` form): option part and explicit value, if any. -/
def splitEqL (l : List Char) : List Char × Option (List Char) :=
  (l.takeWhile fun c => !(c = '='),
   match l.dropWhile (fun c => !(c = '=')) with
   | '=' :: v => some v
   | _ => none)

/-- Long option strings this parser declares (argparse adds `--help`). -/
def longOptions : List (List Char) :=
  ["--help".toList, "--config-file".toList, "--regex-file".toList]

/-- Unambiguous-prefix resolution of a long option token (argparse
`allow_abbrev`, on by default): declared options the token abbreviates;
a bare `--` (length 2) abbreviates nothing. -/
def resolveLong (tok : List Char) : List (List Char) :=
  if tok.length ≤ 2 then []
  else longOptions.filter fun o => isPre tok o

/-- How argparse classifies one command-line token for this parser. -/
inductive TokenKind : Type where
  | ddashOnly : TokenKind
  | helpTok (explicitArg : Option String) : TokenKind
  | cfgTok (explicitArg : Option String) : TokenKind
  | rxTok (explicitArg : Option String) : TokenKind
  | ignoredExplicit : TokenKind
  | ambiguous : TokenKind
  | unknown : TokenKind
deriving DecidableEq, Repr

/-- Classification of one token: `--` is the positional separator; a
longer `--…` token is split at `=` and resolved by unambiguous prefix
among `--help`, `--config-file`, `--regex-file`; `-h` is help, `-h…` is
help with an explicit argument (which help rejects); anything else —
stray value, lone `-`, unknown or negative-number-like token — is left
for the unrecognized-arguments usage error. -/
def classifyToken (a : String) : TokenKind :=
  match a.toList with
  | '-' :: '-' :: [] => .ddashOnly
  | '-' :: '-' :: c :: rest =>
      (let pr := splitEqL ('-' :: '-' :: c :: rest)
       match resolveLong pr.1 with
       | [o] =>
           if o = "--help".toList then
             (match pr.2 with
              | none => .helpTok none
              | some v => .helpTok (some (String.mk v)))
           else if o = "--config-file".toList then .cfgTok (pr.2.map fun v => String.mk v)
           else .rxTok (pr.2.map fun v => String.mk v)
       | [] => .unknown
       | _ :: _ :: _ => .ambiguous)
  | '-' :: 'h' :: [] => .helpTok none
  | '-' :: 'h' :: _ :: _ => .ignoredExplicit
  | _ => .unknown


/-- Parser state between tokens: which value-taking option, if any, is
still waiting for its value. -/
inductive PendingOpt : Type where
  | nothing : PendingOpt
  | forCfg : PendingOpt
  | forRx : PendingOpt
deriving DecidableEq, Repr

/-- Outcome after the `--` separator: every later token is a positional,
and this parser declares none. -/
def ddashRes (cfg rx : Option String) (args : List String) : ArgOutcome :=
  match args with
  | [] => .success cfg rx
  | _ :: _ => .errorExit "unrecognized arguments"

/-- Token-by-token argparse loop: the two accumulated option values (last
occurrence wins, `None` when never given) and the pending value-taking
option.  A value-taking option binds the next token unless that token is
option-like ("expected one argument"), takes an explicit `=` value
verbatim, and `--help` with an explicit value is an error, as in
argparse. -/
def parseArgsGo : Option String → Option String → PendingOpt → List String → ArgOutcome
  | cfg, rx, pending, [] =>
    (match pending with
     | .forCfg => .errorExit "argument --config-file: expected one argument"
     | .forRx => .errorExit "argument --regex-file: expected one argument"
     | .nothing => .success cfg rx)
  | _, rx, .forCfg, a :: args =>
      if optionLike a then .errorExit "argument --config-file: expected one argument"
      else parseArgsGo (some a) rx .nothing args
  | cfg, _, .forRx, a :: args =>
      if optionLike a then .errorExit "argument --regex-file: expected one argument"
      else parseArgsGo cfg (some a) .nothing args
  | cfg, rx, .nothing, a :: args =>
    match classifyToken a with
    | .ddashOnly => ddashRes cfg rx args
    | .helpTok none => .helpExit
    | .helpTok (some _) => .errorExit "ignored explicit argument"
    | .ignoredExplicit => .errorExit "ignored explicit argument"
    | .ambiguous => .errorExit "ambiguous option"
    | .cfgTok (some v) => parseArgsGo (some v) rx .nothing args
    | .cfgTok none => parseArgsGo cfg rx .forCfg args
    | .rxTok (some v) => parseArgsGo cfg (some v) .nothing args
    | .rxTok none => parseArgsGo cfg rx .forRx args
    | .unknown => .errorExit "unrecognized arguments"

/-- Embedding of `parse_arguments()` (src/main.py lines 89-99): an
`ArgumentParser` with exactly two option declarations, `--config-file`
and `--regex-file`, neither marked `required`, each taking one value,
plus argparse's automatic `-h`/`--help`; stray values and unknown
options are a usage error. -/
def parse_arguments (argv : List String) : ArgOutcome :=
  parseArgsGo none none .nothing argv

/-- Reading the `--config-file` flag leaves the parser waiting for its
value. -/
theorem parseGo_cfg_flag (cfg rx : Option String) (args : List String) :
    parseArgsGo cfg rx .nothing ("--config-file" :: args) =
      parseArgsGo cfg rx .forCfg args := by
  rw [parseArgsGo, show classifyToken "--config-file" = TokenKind.cfgTok none from rfl]

/-- Reading the `--regex-file` flag leaves the parser waiting for its
value. -/
theorem parseGo_rx_flag (cfg rx : Option String) (args : List String) :
    parseArgsGo cfg rx .nothing ("--regex-file" :: args) =
      parseArgsGo cfg rx .forRx args := by
  rw [parseArgsGo, show classifyToken "--regex-file" = TokenKind.rxTok none from rfl]

/-- The abbreviated `--config` (unambiguous prefix of `--config-file`)
behaves as the full flag. -/
theorem parseGo_cfg_abbrev (cfg rx : Option String) (args : List String) :
    parseArgsGo cfg rx .nothing ("--config" :: args) =
      parseArgsGo cfg rx .forCfg args := by
  rw [parseArgsGo, show classifyToken "--config" = TokenKind.cfgTok none from rfl]

/-- A non-option-like token is bound as the pending `--config-file`
value. -/
theorem parseGo_cfg_val (cfg rx : Option String) (v : String) (args : List String)
    (hv : optionLike v = false) :
    parseArgsGo cfg rx .forCfg (v :: args) = parseArgsGo (some v) rx .nothing args := by
  rw [parseArgsGo]
  simp [hv]

/-- A non-option-like token is bound as the pending `--regex-file`
value. -/
theorem parseGo_rx_val (cfg rx : Option String) (v : String) (args : List String)
    (hv : optionLike v = false) :
    parseArgsGo cfg rx .forRx (v :: args) = parseArgsGo cfg (some v) .nothing args := by
  rw [parseArgsGo]
  simp [hv]

/-- The explicit `--config-file=value` form binds its value verbatim
(option-like or not). -/
theorem parseGo_cfg_eq (cfg rx : Option String) (v : String) (args : List String) :
    parseArgsGo cfg rx .nothing (("--config-file=" ++ v) :: args) =
      parseArgsGo (some v) rx .nothing args := by
  rw [parseArgsGo,
    show classifyToken ("--config-file=" ++ v) = TokenKind.cfgTok (some v) from rfl]

/-- The explicit `--regex-file=value` form binds its value verbatim. -/
theorem parseGo_rx_eq (cfg rx : Option String) (v : String) (args : List String) :
    parseArgsGo cfg rx .nothing (("--regex-file=" ++ v) :: args) =
      parseArgsGo cfg (some v) .nothing args := by
  rw [parseArgsGo,
    show classifyToken ("--regex-file=" ++ v) = TokenKind.rxTok (some v) from rfl]

/-- C7 counterexample: an invocation with both flags missing is not
rejected — argparse parses it successfully and hands `main` a namespace
with both paths `None` (the `add_argument` calls lack `required=True`),
so the program proceeds past argument parsing. -/
theorem claim_C7_counterexample :
    parse_arguments [] = ArgOutcome.success none none ∧
    ∀ msg, parse_arguments [] ≠ ArgOutcome.errorExit msg := by
  refine ⟨rfl, ?_⟩
  intro msg h
  rw [show parse_arguments [] = ArgOutcome.success none none from rfl] at h
  exact ArgOutcome.noConfusion h

/-- C7 amended: the CLI declares exactly the two value-taking flags
`--config-file` and `--regex-file` plus argparse's automatic
`-h`/`--help`; the flags are not required — an invocation missing either
(or both) parses successfully with the missing path as `None` — each flag
binds its value in either order, by following token (refused when that
token is option-like: "expected one argument"), by the explicit
`--flag=value` form, or through an unambiguous prefix abbreviation; a
flag with no value at all is a usage error, and a stray non-option token
or an unknown option is the unrecognized-arguments usage error. -/
theorem claim_C7 (c r a : String)
    (hc : optionLike c = false) (hr : optionLike r = false)
    (ha : a.toList.head? ≠ some '-') :
    parse_arguments ["--config-file", c, "--regex-file", r] =
      ArgOutcome.success (some c) (some r) ∧
    parse_arguments ["--regex-file", r, "--config-file", c] =
      ArgOutcome.success (some c) (some r) ∧
    parse_arguments ["--config-file=" ++ c, "--regex-file=" ++ r] =
      ArgOutcome.success (some c) (some r) ∧
    parse_arguments ["--config", c] = ArgOutcome.success (some c) none ∧
    parse_arguments ["--config-file", c] = ArgOutcome.success (some c) none ∧
    parse_arguments [] = ArgOutcome.success none none ∧
    parse_arguments ["--config-file"] =
      ArgOutcome.errorExit "argument --config-file: expected one argument" ∧
    parse_arguments ["--config-file", "-x"] =
      ArgOutcome.errorExit "argument --config-file: expected one argument" ∧
    parse_arguments ["-h"] = ArgOutcome.helpExit ∧
    parse_arguments ["--help"] = ArgOutcome.helpExit ∧
    parse_arguments ["--verbose"] = ArgOutcome.errorExit "unrecognized arguments" ∧
    parse_arguments [a] = ArgOutcome.errorExit "unrecognized arguments" := by
  refine ⟨?_, ?_, ?_, ?_, ?_, rfl, rfl, rfl, rfl, rfl, rfl, ?_⟩
  · rw [parse_arguments, parseGo_cfg_flag, parseGo_cfg_val none none c _ hc,
      parseGo_rx_flag, parseGo_rx_val _ none r _ hr]
    rfl
  · rw [parse_arguments, parseGo_rx_flag, parseGo_rx_val none none r _ hr,
      parseGo_cfg_flag, parseGo_cfg_val none _ c _ hc]
    rfl
  · rw [parse_arguments, parseGo_cfg_eq none none c _, parseGo_rx_eq _ none r _]
    rfl
  · rw [parse_arguments, parseGo_cfg_abbrev, parseGo_cfg_val none none c _ hc]
    rfl
  · rw [parse_arguments, parseGo_cfg_flag, parseGo_cfg_val none none c _ hc]
    rfl
  · rw [parse_arguments, parseArgsGo]
    have hk : classifyToken a = TokenKind.unknown := by
      rw [classifyToken]
      split <;> try rfl
      all_goals (exfalso; apply ha; simp_all)
    rw [hk]

/-- C7 witness: concrete paths given in all supported spellings, the
missing-flag and error cases, and the stray token `input.txt`. -/
theorem claim_C7_witness :
    parse_arguments ["--config-file", "conf.yaml", "--regex-file", "regex.yaml"] =
      ArgOutcome.success (some "conf.yaml") (some "regex.yaml") ∧
    parse_arguments ["--regex-file", "regex.yaml", "--config-file", "conf.yaml"] =
      ArgOutcome.success (some "conf.yaml") (some "regex.yaml") ∧
    parse_arguments ["--config-file=" ++ "conf.yaml", "--regex-file=" ++ "regex.yaml"] =
      ArgOutcome.success (some "conf.yaml") (some "regex.yaml") ∧
    parse_arguments ["--config", "conf.yaml"] =
      ArgOutcome.success (some "conf.yaml") none ∧
    parse_arguments ["--config-file", "conf.yaml"] =
      ArgOutcome.success (some "conf.yaml") none ∧
    parse_arguments [] = ArgOutcome.success none none ∧
    parse_arguments ["--config-file"] =
      ArgOutcome.errorExit "argument --config-file: expected one argument" ∧
    parse_arguments ["--config-file", "-x"] =
      ArgOutcome.errorExit "argument --config-file: expected one argument" ∧
    parse_arguments ["-h"] = ArgOutcome.helpExit ∧
    parse_arguments ["--help"] = ArgOutcome.helpExit ∧
    parse_arguments ["--verbose"] = ArgOutcome.errorExit "unrecognized arguments" ∧
    parse_arguments ["input.txt"] = ArgOutcome.errorExit "unrecognized arguments" :=
  claim_C7 "conf.yaml" "regex.yaml" "input.txt" (by decide) (by decide) (by decide)
